import Mathlib

/-!
# Verification of the Glooko risk-assessment tracker core

Shallow embedding of the two core components of the repository
(`src/app.py` and `src/import_data.py`):

* the audited update protocol (`risk_update` in `app.py`),
* the spreadsheet import reconciler (`import_data` route in `app.py`,
  `import_excel_data` in `import_data.py`),
* the lookup-table seeding (`init_db` in `app.py`).

Modelling conventions:

* SQLAlchemy rows become Lean structures; the database becomes a `Store`
  of lists.  Auto-increment surrogate primary keys are modelled with an
  explicit `next…Id` counter where the logic reads them (assets), and are
  omitted where no claim and no code path ever reads them (risk and audit
  row ids are passed around as parameters instead).
* `request.form.get(key)` is `Option`: `none` models an absent key; with
  the Flask int conversion a present but non-numeric value also yields `none`.
* `datetime.utcnow()` becomes an explicit `now : Nat` parameter.
* Pandas cells are `Option` (`none` = NaN).  A cell in the number column
  is a `NumCell`: either an int-convertible value or a raw string whose
  `int()` conversion raises `ValueError` — the exception source used to
  model the try/except behaviour of the import.
* Python truthiness: for ints truthy = nonzero, for strings = non-empty.
-/

/-- Substring test on character lists: does `pat` occur at the head? -/
def listStarts : List Char → List Char → Bool
  | [], _ => true
  | _ :: _, [] => false
  | a :: as, b :: bs => a == b && listStarts as bs

/-- Substring test on character lists: does `pat` occur anywhere? -/
def listSub (pat : List Char) : List Char → Bool
  | [] => pat.isEmpty
  | b :: bs => listStarts pat (b :: bs) || listSub pat bs

/-- Python `pat in hay` on strings (substring containment). -/
def strHas (hay pat : String) : Bool :=
  listSub pat.data hay.data

/-- An ASCII whitespace character (the characters Python `str.strip`
removes in the data at hand). -/
def isSpaceChar (c : Char) : Bool :=
  c == ' ' || c == '\t' || c == '\n' || c == '\r'

/-- Python `str.strip()`. -/
def pyStrip (s : String) : String :=
  String.mk (((s.data.dropWhile isSpaceChar).reverse.dropWhile
    isSpaceChar).reverse)

/-- ASCII lower-casing of one character (the data at hand is ASCII). -/
def lowerChar (c : Char) : Char :=
  if 65 ≤ c.toNat ∧ c.toNat ≤ 90 then Char.ofNat (c.toNat + 32) else c

/-- Python `str.lower()`. -/
def pyLower (s : String) : String :=
  String.mk (s.data.map lowerChar)

/-- Python slicing `s[:n]`. -/
def strTake (s : String) (n : Nat) : String :=
  String.mk (s.data.take n)

/-- Python `str(v) if v else None` applied to an optional string:
a falsy value (absent or empty) is stored as NULL. -/
def strOrNone (v : Option String) : Option String :=
  match v with
  | none => none
  | some s => if s = "" then none else some s

/-!
## Data model (`app.py` SQLAlchemy models)
-/

/-- `Asset` row (`app.py`): unique name, heuristic type. -/
structure Asset where
  id : Int
  name : String
  assetType : String
deriving DecidableEq, Repr

/-- `StrideCategory` row. -/
structure StrideCat where
  code : String
  name : String
  description : String
deriving DecidableEq, Repr

/-- `SeverityLevel` / `ExploitRiskLevel` row (same shape). -/
structure LevelRow where
  id : Int
  name : String
  value : Int
deriving DecidableEq, Repr

/-- `RiskRating` row. -/
structure RatingRow where
  id : Int
  name : String
  actionRequired : String
deriving DecidableEq, Repr

/-- `Control` row (string primary key). -/
structure ControlRow where
  ctrlId : String
  name : String
  description : Option String
  categoryTag : Option String
  isActive : Bool
deriving DecidableEq, Repr

/-- `RiskAssessment` row (`app.py`).  All nullable columns are `Option`. -/
structure Risk where
  assessmentNumber : Option Int
  assetId : Int
  operation : Option String
  platform : Option String
  modelRef : Option String
  strideCode : Option String
  strideDescription : Option String
  findingNumber : Option String
  severityId : Option Int
  preExploitRiskId : Option Int
  preRiskRatingId : Option Int
  postExploitRiskId : Option Int
  postRiskRatingId : Option Int
  controlIds : Option String
  referenceDocs : Option String
  assessmentYear : Int
  reviewStatus : String
  reviewedBy : Option String
  reviewedAt : Option Nat
  notes : Option String
  createdAt : Nat
  updatedAt : Nat
deriving DecidableEq, Repr

/-- `AuditLog` row. -/
structure AuditEntry where
  riskId : Int
  action : String
  fieldChanged : String
  oldValue : Option String
  newValue : Option String
  changedBy : String
  changedAt : Nat
deriving DecidableEq, Repr

/-- The database: lookup tables plus the operational tables.
`next…Id` counters model auto-increment primary keys. -/
structure Store where
  strideCategories : List StrideCat
  severityLevels : List LevelRow
  exploitRiskLevels : List LevelRow
  riskRatings : List RatingRow
  controls : List ControlRow
  assets : List Asset
  risks : List Risk
  nextAssetId : Int
  nextSeverityId : Int
  nextExploitId : Int
  nextRatingId : Int
deriving DecidableEq, Repr

/-- A store with empty tables (fresh database). -/
def emptyStore : Store :=
  { strideCategories := [], severityLevels := [], exploitRiskLevels := []
    riskRatings := [], controls := [], assets := [], risks := []
    nextAssetId := 1, nextSeverityId := 1, nextExploitId := 1, nextRatingId := 1 }

/-- `ExploitRiskLevel.query.get(id).name` (None when the id is absent). -/
def exploitName (st : Store) (i : Int) : Option String :=
  (st.exploitRiskLevels.find? (fun l => l.id == i)).map (fun l => l.name)

/-- `RiskRating.query.get(id).name` (None when the id is absent). -/
def ratingName (st : Store) (i : Int) : Option String :=
  (st.riskRatings.find? (fun r => r.id == i)).map (fun r => r.name)

/-!
## Update protocol (`risk_update`, `app.py` lines 262–319)

The HTML form is modelled by `UpdateForm`; the route body becomes
`riskUpdate`, split into the four field steps in source order, followed
by the unconditional year assignment and the audit-row construction.
-/

/-- The POST form of `risk_update`.  `none` = key absent
(for the two id fields also: present but not parseable as int). -/
structure UpdateForm where
  postExploitRiskId : Option Int
  postRiskRatingId : Option Int
  notes : Option String
  reviewStatus : Option String
  reviewedBy : Option String
deriving DecidableEq, Repr

/-- One entry of the `changes` list: field name, old value, new value. -/
abbrev ChangeT := String × Option String × Option String

/-- `app.py` 271–277: post-mitigation exploit risk step. -/
def updExploit (st : Store) (form : UpdateForm) (risk : Risk) :
    Risk × List ChangeT :=
  match form.postExploitRiskId with
  | some n =>
      if n ≠ 0 ∧ risk.postExploitRiskId ≠ some n then
        let oldV := risk.postExploitRiskId.bind (exploitName st)
        let newV := exploitName st n
        ({ risk with postExploitRiskId := some n },
         [("post_exploit_risk", oldV, newV)])
      else (risk, [])
  | none => (risk, [])

/-- `app.py` 279–285: post-mitigation risk rating step. -/
def updRating (st : Store) (form : UpdateForm) (risk : Risk) :
    Risk × List ChangeT :=
  match form.postRiskRatingId with
  | some n =>
      if n ≠ 0 ∧ risk.postRiskRatingId ≠ some n then
        let oldV := risk.postRiskRatingId.bind (ratingName st)
        let newV := ratingName st n
        ({ risk with postRiskRatingId := some n },
         [("post_risk_rating", oldV, newV)])
      else (risk, [])
  | none => (risk, [])

/-- `app.py` 287–291: notes step (the notes key is read with an
empty-string default and compared by value against the stored,
possibly NULL, notes). -/
def updNotes (form : UpdateForm) (risk : Risk) : Risk × List ChangeT :=
  let newNotes := form.notes.getD ""
  if risk.notes ≠ some newNotes then
    ({ risk with notes := some newNotes },
     [("notes", risk.notes, some newNotes)])
  else (risk, [])

/-- `app.py` 293–300: review-status step with the reviewed-by /
reviewed-at side effect on a transition into reviewed or approved. -/
def updStatus (now : Nat) (form : UpdateForm) (risk : Risk) :
    Risk × List ChangeT :=
  match form.reviewStatus with
  | some s =>
      if s ≠ "" ∧ s ≠ risk.reviewStatus then
        let r1 := { risk with reviewStatus := s }
        let r2 :=
          if s = "reviewed" ∨ s = "approved" then
            { r1 with reviewedAt := some now
                      reviewedBy := some (form.reviewedBy.getD "Unknown") }
          else r1
        (r2, [("review_status", some risk.reviewStatus, some s)])
      else (risk, [])
  | none => (risk, [])

/-- `app.py` 306–315: build one `AuditLog` row from a change tuple. -/
def mkAudit (riskId : Int) (changedBy : String) (now : Nat)
    (c : ChangeT) : AuditEntry :=
  { riskId := riskId, action := "updated", fieldChanged := c.1
    oldValue := strOrNone c.2.1, newValue := strOrNone c.2.2
    changedBy := changedBy, changedAt := now }

/-- The whole `risk_update` body: the four diff steps in source order,
the unconditional `assessment_year = 2026` assignment, the
`updated_at` refresh, and the audit rows for the collected changes. -/
def riskUpdate (st : Store) (now : Nat) (riskId : Int)
    (form : UpdateForm) (risk : Risk) : Risk × List AuditEntry :=
  let p1 := updExploit st form risk
  let p2 := updRating st form p1.1
  let p3 := updNotes form p2.1
  let p4 := updStatus now form p3.1
  let r5 := { p4.1 with assessmentYear := 2026, updatedAt := now }
  let changedBy := form.reviewedBy.getD "Unknown"
  (r5, (p1.2 ++ p2.2 ++ p3.2 ++ p4.2).map (mkAudit riskId changedBy now))

/-!
Indicator predicates used to state the audit-count claim: for each
candidate field, does the proposed value actually differ from the
stored value (absent / zero / empty proposals skipped where the form
treats them as no-ops)?
-/

/-- The proposed post-mitigation exploit-risk id is present, nonzero and
differs from the stored value. -/
def exploitDiffers (form : UpdateForm) (risk : Risk) : Bool :=
  match form.postExploitRiskId with
  | some n => n != 0 && risk.postExploitRiskId != some n
  | none => false

/-- The proposed post-mitigation rating id is present, nonzero and
differs from the stored value. -/
def ratingDiffers (form : UpdateForm) (risk : Risk) : Bool :=
  match form.postRiskRatingId with
  | some n => n != 0 && risk.postRiskRatingId != some n
  | none => false

/-- The proposed notes text (absent ≡ empty) differs by value from the
stored notes. -/
def notesDiffer (form : UpdateForm) (risk : Risk) : Bool :=
  risk.notes != some (form.notes.getD "")

/-- The proposed review status is present, non-empty and differs from
the stored status. -/
def statusDiffers (form : UpdateForm) (risk : Risk) : Bool :=
  match form.reviewStatus with
  | some s => s != "" && s != risk.reviewStatus
  | none => false

/-!
## Import reconciler (`import_data` route, `app.py` lines 371–595)

The uploaded spreadsheet is modelled by `ImportDoc`: the column/sheet
heuristics of lines 425–453 and 467–474 and 489–494 are pure functions
of the document alone, so the document carries the resolution outcome
(`hasAssetCol`, `hasNumCol`, …) together with the resolved cell of each
row for each logical column (`none` = NaN or column unresolved at doc
level).
-/

/-- A cell of the assessment-number column: either int-convertible, or
a raw non-null value on which Python `int()` raises `ValueError`. -/
inductive NumCell where
  | intCell (n : Int)
  | rawCell (s : String)
deriving DecidableEq, Repr

/-- A single-quote character, kept out of string literals. -/
def quoteMark : String := String.mk [Char.ofNat 39]

/-- The `ValueError` message of Python `int()` on a bad literal. -/
def pyIntErrMsg (s : String) : String :=
  "invalid literal for int() with base 10: " ++ quoteMark ++ s ++ quoteMark

/-- Python `int(cell)`. -/
def cellToInt : NumCell → Except String Int
  | NumCell.intCell n => Except.ok n
  | NumCell.rawCell s => Except.error (pyIntErrMsg s)

/-- One row of the risk-detail sheet, with cells of the heuristically
resolved columns. -/
structure ImportRow where
  numVal : Option NumCell
  assetVal : Option String
  strideVal : Option String
  descVal : Option String
deriving DecidableEq, Repr

/-- The parsed document: column/sheet resolution outcomes plus rows. -/
structure ImportDoc where
  hasAssetCol : Bool
  hasNumCol : Bool
  hasStrideCol : Bool
  hasDescCol : Bool
  riskRows : List ImportRow
  hasControlSheet : Bool
  controlRows : List (Option String)
deriving DecidableEq, Repr

/-- pandas `Series.unique()`: deduplicate keeping first occurrences. -/
def pdUniqueAux (seen : List String) : List String → List String
  | [] => []
  | x :: xs =>
      if seen.contains x then pdUniqueAux seen xs
      else x :: pdUniqueAux (x :: seen) xs

/-- `df[asset_col].dropna().unique()` applied to the asset column. -/
def assetColValues (doc : ImportDoc) : List String :=
  pdUniqueAux [] (doc.riskRows.filterMap (fun r => r.assetVal))

/-- `app.py` 458: the asset-type heuristic of the web import (note: no
`Process` branch, unlike `import_data.py`). -/
def classifyAssetWeb (name : String) : String :=
  if strHas name " to " then "DataFlow" else "Component"

/-- `import_data.py` 34–39: the asset-type heuristic of the CLI import. -/
def classifyAssetCli (name : String) : String :=
  if strHas name " to " then "DataFlow"
  else if ["management", "authentication", "calculate"].any
      (fun x => strHas (pyLower name) x) then "Process"
  else "Component"

/-- Modelled from the spec (§4.2 asset upsert): classification by the
exact substring heuristic as the spec words it, for comparison with the
source functions: contains " to " → DataFlow; otherwise lowercased name
contains any of management / authentication / calculate → Process;
otherwise Component. -/
def classifySpec (name : String) : String :=
  if strHas name " to " then "DataFlow"
  else if ["management", "authentication", "calculate"].any
      (fun x => strHas (pyLower name) x) then "Process"
  else "Component"

/-- Does the store contain an asset with this exact name? -/
def hasAssetName (st : Store) (nm : String) : Bool :=
  st.assets.any (fun a => a.name == nm)

/-- Append a new asset row with the next auto-increment id. -/
def addAsset (st : Store) (nm ty : String) : Store :=
  { st with
      assets := st.assets ++ [⟨st.nextAssetId, nm, ty⟩]
      nextAssetId := st.nextAssetId + 1 }

/-- `app.py` 455–460: the asset pass over the distinct asset-column
values; returns the store and the `imported_assets` count. -/
def importAssetsLoop : List String → Store → Nat → Store × Nat
  | [], st, k => (st, k)
  | raw :: rest, st, k =>
      let nm := pyStrip raw
      if nm ≠ "" ∧ ¬ hasAssetName st nm then
        importAssetsLoop rest (addAsset st nm (classifyAssetWeb nm)) (k + 1)
      else importAssetsLoop rest st k

/-- `app.py` 447–461: asset phase (skipped when no asset column
resolves), committed as one batch. -/
def importPhaseAssets (doc : ImportDoc) (st : Store) : Store × Nat :=
  if doc.hasAssetCol then importAssetsLoop (assetColValues doc) st 0
  else (st, 0)

/-- `app.py` 464: `asset_map = {a.name: a.id for a in Asset.query.all()}`
(asset names are unique in the store, so first match suffices). -/
def assetMapLookup (st : Store) (nm : String) : Option Int :=
  (st.assets.find? (fun a => a.name == nm)).map (fun a => a.id)

/-- `f"C-{n:04d}"`. -/
def ctrlIdFor (n : Nat) : String :=
  if n < 10 then "C-000" ++ toString n
  else if n < 100 then "C-00" ++ toString n
  else if n < 1000 then "C-0" ++ toString n
  else "C-" ++ toString n

/-- Does the store contain a control with this primary key? -/
def hasControlId (st : Store) (cid : String) : Bool :=
  st.controls.any (fun c => c.ctrlId == cid)

/-- `app.py` 476–487: the control pass; the counter advances only when
a row is actually created. -/
def controlsLoop : List (Option String) → Store → Nat → Nat → Store × Nat
  | [], st, _, k => (st, k)
  | none :: rest, st, ctr, k => controlsLoop rest st ctr k
  | some txt :: rest, st, ctr, k =>
      let t := pyStrip txt
      let cid := ctrlIdFor ctr
      if ¬ hasControlId st cid then
        controlsLoop rest
          { st with controls := st.controls ++
              [⟨cid, cid, some (strTake t 1000), none, true⟩] }
          (ctr + 1) (k + 1)
      else controlsLoop rest st ctr k

/-- `app.py` 467–487: control phase (skipped when no controls sheet). -/
def importPhaseControls (doc : ImportDoc) (st : Store) : Store × Nat :=
  if doc.hasControlSheet then controlsLoop doc.controlRows st 1 0
  else (st, 0)

/-- `app.py` 522–529: the risk row created by the import. -/
def mkImportedRisk (now : Nat) (num : Int) (aid : Int)
    (scode sdesc : Option String) : Risk :=
  { assessmentNumber := some num, assetId := aid
    operation := none, platform := none, modelRef := none
    strideCode := scode, strideDescription := sdesc
    findingNumber := none, severityId := none
    preExploitRiskId := none, preRiskRatingId := none
    postExploitRiskId := none, postRiskRatingId := none
    controlIds := none, referenceDocs := none
    assessmentYear := 2025, reviewStatus := "pending"
    reviewedBy := none, reviewedAt := none, notes := none
    createdAt := now, updatedAt := now }

/-- Does some risk (committed or pending) carry this assessment number? -/
def hasRiskNum (rs : List Risk) (n : Int) : Bool :=
  rs.any (fun r => r.assessmentNumber == some n)

/-- The trimmed asset-column value of a row, when resolvable. -/
def rowAssetName (doc : ImportDoc) (row : ImportRow) : Option String :=
  if doc.hasAssetCol then row.assetVal.map (fun s => pyStrip s) else none

/-- Outcome of the risk loop: on success the committed store, the rows
still pending in the session, and the `imported_risks` count; on a raised
exception the committed store only (the pending rows are never
committed). -/
inductive RiskLoopOut where
  | ok (committed : Store) (pending : List Risk) (count : Nat)
  | err (msg : String) (committed : Store)
deriving Repr

/-- `app.py` 497–501: the assessment number of a row — the int
conversion of the number cell when the column resolved and the cell is
non-null, the session counter plus one otherwise. -/
def rowNum (doc : ImportDoc) (row : ImportRow) (count : Nat) :
    Except String Int :=
  if doc.hasNumCol then
    match row.numVal with
    | some c => cellToInt c
    | none => Except.ok (Int.ofNat (count + 1))
  else Except.ok (Int.ofNat (count + 1))

/-- One iteration of the risk loop body (`app.py` 496–534): number
resolution (which can raise), duplicate-number skip, asset resolution
skip, row creation, and the every-100 commit. -/
def riskStep (now : Nat) (doc : ImportDoc) (amap : String → Option Int)
    (row : ImportRow) (st : Store) (pending : List Risk) (count : Nat) :
    Except String (Store × List Risk × Nat) :=
  match rowNum doc row count with
  | Except.error msg => Except.error msg
  | Except.ok num =>
      if hasRiskNum (st.risks ++ pending) num then
        Except.ok (st, pending, count)
      else
        match (rowAssetName doc row).bind amap with
        | none => Except.ok (st, pending, count)
        | some aid =>
            let scode := if doc.hasStrideCol then
                row.strideVal.map (fun s => strTake s 1) else none
            let sdesc := if doc.hasDescCol then
                row.descVal.map (fun s => strTake s 500) else none
            let r := mkImportedRisk now num aid scode sdesc
            if (count + 1) % 100 == 0 then
              Except.ok ({ st with risks := st.risks ++ pending ++ [r] },
                [], count + 1)
            else
              Except.ok (st, pending ++ [r], count + 1)

/-- `app.py` 496–534: the risk pass.  `st` holds only committed state;
`pending` are rows added to the session since the last commit; the
duplicate-number query sees committed plus pending rows (autoflush).
Every 100 created rows the session is committed; a raised exception
abandons the remaining rows (the pending rows are never committed). -/
def riskLoop (now : Nat) (doc : ImportDoc) (amap : String → Option Int) :
    List ImportRow → Store → List Risk → Nat → RiskLoopOut
  | [], st, pending, count => RiskLoopOut.ok st pending count
  | row :: rest, st, pending, count =>
      match riskStep now doc amap row st pending count with
      | Except.error msg => RiskLoopOut.err msg st
      | Except.ok (st2, p2, c2) => riskLoop now doc amap rest st2 p2 c2

/-- The result summary of the import (`imported_assets`, `imported_controls`,
`imported_risks`). -/
structure Summary where
  assetsImported : Nat
  controlsImported : Nat
  risksImported : Nat
deriving DecidableEq, Repr

/-- Success page with the summary, or error page with the message. -/
inductive ImportOutcome where
  | ok (s : Summary)
  | err (msg : String)
deriving DecidableEq, Repr

/-- What the POST handler leaves behind: the response and the committed
database state. -/
structure ImportResult where
  outcome : ImportOutcome
  store : Store
deriving Repr

/-- The whole `import_data` POST body (`app.py` 421–595): asset phase
(committed), asset map, control phase (committed), risk loop with
batched commits, final commit on success; an exception abandons the
remaining work, skips the final commit and surfaces the message. -/
def importData (now : Nat) (doc : ImportDoc) (st : Store) : ImportResult :=
  let pa := importPhaseAssets doc st
  let amap := assetMapLookup pa.1
  let pc := importPhaseControls doc pa.1
  match riskLoop now doc amap doc.riskRows pc.1 [] 0 with
  | RiskLoopOut.ok stc pending count =>
      { outcome := ImportOutcome.ok ⟨pa.2, pc.2, count⟩
        store := { stc with risks := stc.risks ++ pending } }
  | RiskLoopOut.err msg stc =>
      { outcome := ImportOutcome.err msg, store := stc }

/-!
## Lookup seeding (`init_db`, `app.py` lines 601–639)
-/

/-- The seed rows appended by `init_db` when `StrideCategory` is empty:
seven STRIDE-L categories, three severities, three exploit-risk levels,
three ratings (no controls are seeded). -/
def seedLookups (st : Store) : Store :=
  let s := st.nextSeverityId
  let e := st.nextExploitId
  let r := st.nextRatingId
  { st with
      strideCategories := st.strideCategories ++
        [⟨"S", "Spoofing", "Attacker assumes identity of another user"⟩,
         ⟨"T", "Tampering", "Attacker changes data without authorization"⟩,
         ⟨"R", "Repudiation", "Attacker denies performing an action"⟩,
         ⟨"I", "Information Disclosure",
          "Attacker accesses unauthorized information"⟩,
         ⟨"D", "Denial of Service", "Attacker disrupts system availability"⟩,
         ⟨"E", "Elevation of Privilege",
          "Attacker gains unauthorized privileges"⟩,
         ⟨"L", "Lateral Movement", "Attacker moves between systems/networks"⟩]
      severityLevels := st.severityLevels ++
        [⟨s, "2 - Minor", 2⟩, ⟨s + 1, "3 - Serious", 3⟩,
         ⟨s + 2, "4 - CRITICAL", 4⟩]
      exploitRiskLevels := st.exploitRiskLevels ++
        [⟨e, "1 - Low", 1⟩, ⟨e + 1, "3 - Medium", 3⟩, ⟨e + 2, "5 - High", 5⟩]
      riskRatings := st.riskRatings ++
        [⟨r, "Acceptable", "Organization can accept residual risk"⟩,
         ⟨r + 1, "Mitigation Desirable",
          "Organization MAY accept residual risk, but mitigation is recommended"⟩,
         ⟨r + 2, "Remediation Required",
          "Organization may NOT accept residual risk; remediation is required"⟩]
      nextSeverityId := s + 3
      nextExploitId := e + 3
      nextRatingId := r + 3 }

/-- `init_db`: seed the lookup tables only when `StrideCategory` is
empty (`db.create_all` affects schema only and is not modelled). -/
def initDb (st : Store) : Store :=
  if st.strideCategories.length == 0 then seedLookups st else st

/-!
## Concrete fixtures used by the example-level theorems
-/

def emptyForm : UpdateForm := ⟨none, none, none, none, none⟩

def approvedRisk : Risk :=
  { assessmentNumber := some 1, assetId := 1, operation := none
    platform := none, modelRef := none, strideCode := none
    strideDescription := none, findingNumber := none, severityId := none
    preExploitRiskId := none, preRiskRatingId := none
    postExploitRiskId := some 1, postRiskRatingId := some 2
    controlIds := none, referenceDocs := none, assessmentYear := 2025
    reviewStatus := "approved", reviewedBy := some "Alice"
    reviewedAt := some 10, notes := some "", createdAt := 0, updatedAt := 0 }

def pendingRisk : Risk :=
  { approvedRisk with reviewStatus := "pending", reviewedBy := none
                      reviewedAt := none }

def formApprove : UpdateForm := ⟨none, none, none, some "approved", some "Bob"⟩

def formPendingBack : UpdateForm := ⟨none, none, none, some "pending", none⟩

def formZero : UpdateForm := ⟨some 0, some 0, none, none, none⟩

def docC3 : ImportDoc :=
  { hasAssetCol := true, hasNumCol := true, hasStrideCol := false
    hasDescCol := false
    riskRows := [⟨some (NumCell.intCell 5), some "Alpha", none, none⟩,
                 ⟨none, some "Alpha", none, none⟩]
    hasControlSheet := false, controlRows := [] }

def docC5 : ImportDoc :=
  { hasAssetCol := true, hasNumCol := true, hasStrideCol := false
    hasDescCol := false
    riskRows := [⟨some (NumCell.intCell 1), some "Authentication Service",
                  none, none⟩]
    hasControlSheet := false, controlRows := [] }

def docC6 : ImportDoc :=
  { hasAssetCol := true, hasNumCol := true, hasStrideCol := false
    hasDescCol := false
    riskRows := [⟨some (NumCell.intCell 7), some "Alpha", none, none⟩,
                 ⟨some (NumCell.intCell 7), some "Beta", none, none⟩]
    hasControlSheet := false, controlRows := [] }

def storeWithBeta : Store :=
  { emptyStore with assets := [⟨1, "Beta", "Component"⟩], nextAssetId := 2 }

def docC7 : ImportDoc :=
  { hasAssetCol := true, hasNumCol := true, hasStrideCol := false
    hasDescCol := false
    riskRows := [⟨some (NumCell.intCell 1), some "Alpha", none, none⟩,
                 ⟨some (NumCell.rawCell "N/A"), some "Alpha", none, none⟩]
    hasControlSheet := false, controlRows := [] }

def seededOnce : Store :=
  { emptyStore with strideCategories := [⟨"S", "Spoofing", "x"⟩] }

/-!
## Helper lemmas about the update steps
-/

theorem updExploit_only (st : Store) (form : UpdateForm) (risk : Risk) :
    (updExploit st form risk).1
      = { risk with postExploitRiskId :=
            (updExploit st form risk).1.postExploitRiskId } := by
  cases h : form.postExploitRiskId <;> simp [updExploit, h]
  split <;> rfl

theorem updRating_only (st : Store) (form : UpdateForm) (risk : Risk) :
    (updRating st form risk).1
      = { risk with postRiskRatingId :=
            (updRating st form risk).1.postRiskRatingId } := by
  cases h : form.postRiskRatingId <;> simp [updRating, h]
  split <;> rfl

theorem updNotes_only (form : UpdateForm) (risk : Risk) :
    (updNotes form risk).1
      = { risk with notes := (updNotes form risk).1.notes } := by
  simp [updNotes]
  split <;> rfl

theorem updStatus_only (now : Nat) (form : UpdateForm) (risk : Risk) :
    (updStatus now form risk).1
      = { risk with
            reviewStatus := (updStatus now form risk).1.reviewStatus
            reviewedBy := (updStatus now form risk).1.reviewedBy
            reviewedAt := (updStatus now form risk).1.reviewedAt } := by
  cases h : form.reviewStatus <;> simp [updStatus, h]
  split
  · split <;> rfl
  · rfl

theorem updExploit_len (st : Store) (form : UpdateForm) (risk : Risk) :
    ((updExploit st form risk).2).length
      = if exploitDiffers form risk then 1 else 0 := by
  cases h : form.postExploitRiskId <;>
    simp [updExploit, exploitDiffers, h]
  split <;> simp_all [bne]

theorem updRating_len (st : Store) (form : UpdateForm) (risk : Risk) :
    ((updRating st form risk).2).length
      = if ratingDiffers form risk then 1 else 0 := by
  cases h : form.postRiskRatingId <;>
    simp [updRating, ratingDiffers, h]
  split <;> simp_all [bne]

theorem updNotes_len (form : UpdateForm) (risk : Risk) :
    ((updNotes form risk).2).length
      = if notesDiffer form risk then 1 else 0 := by
  simp [updNotes, notesDiffer]
  split <;> simp_all [bne]

theorem updStatus_len (now : Nat) (form : UpdateForm) (risk : Risk) :
    ((updStatus now form risk).2).length
      = if statusDiffers form risk then 1 else 0 := by
  cases h : form.reviewStatus <;>
    simp [updStatus, statusDiffers, h]
  split
  · split <;> simp_all [bne]
  · simp_all [bne]

theorem ratingDiffers_eq (form : UpdateForm) {r1 r2 : Risk}
    (h : r1.postRiskRatingId = r2.postRiskRatingId) :
    ratingDiffers form r1 = ratingDiffers form r2 := by
  cases hf : form.postRiskRatingId <;> simp [ratingDiffers, hf, h]

theorem notesDiffer_eq (form : UpdateForm) {r1 r2 : Risk}
    (h : r1.notes = r2.notes) :
    notesDiffer form r1 = notesDiffer form r2 := by
  simp [notesDiffer, h]

theorem statusDiffers_eq (form : UpdateForm) {r1 r2 : Risk}
    (h : r1.reviewStatus = r2.reviewStatus) :
    statusDiffers form r1 = statusDiffers form r2 := by
  cases hf : form.reviewStatus <;> simp [statusDiffers, hf, h]

/-- C1: for every applied update, the number of AuditLog rows created
equals exactly the number of candidate fields (post-mitigation
exploit-risk id, post-mitigation rating id, notes, review status) whose
proposed value actually differs from the stored value under value
equality, with an absent or zero id proposal and an absent or empty
status proposal skipped (an absent notes key is compared as the empty
string); in particular a no-change submission creates zero rows. -/
theorem c1_audit_count_eq_changed_fields (st : Store) (now : Nat) (riskId : Int)
    (form : UpdateForm) (risk : Risk) :
    ((riskUpdate st now riskId form risk).2).length
      = (if exploitDiffers form risk then 1 else 0)
        + (if ratingDiffers form risk then 1 else 0)
        + (if notesDiffer form risk then 1 else 0)
        + (if statusDiffers form risk then 1 else 0) := by
  have h1 := updExploit_only st form risk
  have h2 := updRating_only st form (updExploit st form risk).1
  have h3 := updNotes_only form (updRating st form (updExploit st form risk).1).1
  unfold riskUpdate
  simp only [List.length_map, List.length_append]
  rw [updExploit_len, updRating_len, updNotes_len, updStatus_len]
  rw [ratingDiffers_eq form (show (updExploit st form risk).1.postRiskRatingId
        = risk.postRiskRatingId by rw [h1])]
  rw [notesDiffer_eq form (show (updRating st form (updExploit st form risk).1).1.notes
        = risk.notes by rw [h2, h1])]
  rw [statusDiffers_eq form
      (show (updNotes form (updRating st form (updExploit st form risk).1).1).1.reviewStatus
        = risk.reviewStatus by rw [h3, h2, h1])]



theorem updExploit_skip (st : Store) (form : UpdateForm) (risk : Risk)
    (h : exploitDiffers form risk = false) :
    updExploit st form risk = (risk, []) := by
  cases hf : form.postExploitRiskId with
  | none => simp [updExploit, hf]
  | some n =>
      simp only [exploitDiffers, hf, Bool.and_eq_false_iff,
        bne_eq_false_iff_eq] at h
      simp only [updExploit, hf]
      rw [if_neg]
      rcases h with h | h
      · exact fun hc => hc.1 h
      · exact fun hc => hc.2 h

theorem updRating_skip (st : Store) (form : UpdateForm) (risk : Risk)
    (h : ratingDiffers form risk = false) :
    updRating st form risk = (risk, []) := by
  cases hf : form.postRiskRatingId with
  | none => simp [updRating, hf]
  | some n =>
      simp only [ratingDiffers, hf, Bool.and_eq_false_iff,
        bne_eq_false_iff_eq] at h
      simp only [updRating, hf]
      rw [if_neg]
      rcases h with h | h
      · exact fun hc => hc.1 h
      · exact fun hc => hc.2 h

theorem updNotes_skip (form : UpdateForm) (risk : Risk)
    (h : notesDiffer form risk = false) :
    updNotes form risk = (risk, []) := by
  simp only [notesDiffer, bne_eq_false_iff_eq] at h
  simp only [updNotes]
  rw [if_neg]
  exact fun hc => hc h

theorem updStatus_skip (now : Nat) (form : UpdateForm) (risk : Risk)
    (h : statusDiffers form risk = false) :
    updStatus now form risk = (risk, []) := by
  cases hf : form.reviewStatus with
  | none => simp [updStatus, hf]
  | some s =>
      simp only [statusDiffers, hf, Bool.and_eq_false_iff,
        bne_eq_false_iff_eq] at h
      simp only [updStatus, hf]
      rw [if_neg]
      rcases h with h | h
      · exact fun hc => hc.1 h
      · exact fun hc => hc.2 h

theorem riskUpdate_pres_exploit (st : Store) (now : Nat) (riskId : Int)
    (form : UpdateForm) (risk : Risk)
    (h : exploitDiffers form risk = false) :
    (riskUpdate st now riskId form risk).1.postExploitRiskId
      = risk.postExploitRiskId := by
  simp only [riskUpdate]
  rw [updStatus_only, updNotes_only, updRating_only,
    updExploit_skip st form risk h]

theorem riskUpdate_pres_rating (st : Store) (now : Nat) (riskId : Int)
    (form : UpdateForm) (risk : Risk)
    (h : ratingDiffers form risk = false) :
    (riskUpdate st now riskId form risk).1.postRiskRatingId
      = risk.postRiskRatingId := by
  have h1 : ratingDiffers form (updExploit st form risk).1 = false := by
    rw [ratingDiffers_eq form
      (show (updExploit st form risk).1.postRiskRatingId
          = risk.postRiskRatingId by rw [updExploit_only])]
    exact h
  simp only [riskUpdate]
  rw [updStatus_only, updNotes_only, updRating_skip st form _ h1,
    updExploit_only]

theorem riskUpdate_pres_notes (st : Store) (now : Nat) (riskId : Int)
    (form : UpdateForm) (risk : Risk)
    (h : notesDiffer form risk = false) :
    (riskUpdate st now riskId form risk).1.notes = risk.notes := by
  have h1 : notesDiffer form
      (updRating st form (updExploit st form risk).1).1 = false := by
    rw [notesDiffer_eq form
      (show (updRating st form (updExploit st form risk).1).1.notes
          = risk.notes by rw [updRating_only, updExploit_only])]
    exact h
  simp only [riskUpdate]
  rw [updStatus_only, updNotes_skip form _ h1, updRating_only,
    updExploit_only]

theorem riskUpdate_pres_status (st : Store) (now : Nat) (riskId : Int)
    (form : UpdateForm) (risk : Risk)
    (h : statusDiffers form risk = false) :
    (riskUpdate st now riskId form risk).1.reviewStatus = risk.reviewStatus
    ∧ (riskUpdate st now riskId form risk).1.reviewedBy = risk.reviewedBy
    ∧ (riskUpdate st now riskId form risk).1.reviewedAt = risk.reviewedAt := by
  have h1 : statusDiffers form
      (updNotes form (updRating st form (updExploit st form risk).1).1).1
        = false := by
    rw [statusDiffers_eq form
      (show (updNotes form
          (updRating st form (updExploit st form risk).1).1).1.reviewStatus
          = risk.reviewStatus by
        rw [updNotes_only, updRating_only, updExploit_only])]
    exact h
  refine ⟨?_, ?_, ?_⟩ <;>
    (simp only [riskUpdate]
     rw [updStatus_skip now form _ h1, updNotes_only, updRating_only,
       updExploit_only])

theorem updExploit_applied (st : Store) (form : UpdateForm) (risk : Risk)
    (h : exploitDiffers form risk = true) :
    ∃ n, form.postExploitRiskId = some n
      ∧ (updExploit st form risk).1.postExploitRiskId = some n := by
  cases hf : form.postExploitRiskId with
  | none => simp [exploitDiffers, hf] at h
  | some n =>
      simp only [exploitDiffers, hf, Bool.and_eq_true, bne_iff_ne] at h
      refine ⟨n, rfl, ?_⟩
      simp only [updExploit, hf]
      rw [if_pos h]

theorem updRating_applied (st : Store) (form : UpdateForm) (risk : Risk)
    (h : ratingDiffers form risk = true) :
    ∃ n, form.postRiskRatingId = some n
      ∧ (updRating st form risk).1.postRiskRatingId = some n := by
  cases hf : form.postRiskRatingId with
  | none => simp [ratingDiffers, hf] at h
  | some n =>
      simp only [ratingDiffers, hf, Bool.and_eq_true, bne_iff_ne] at h
      refine ⟨n, rfl, ?_⟩
      simp only [updRating, hf]
      rw [if_pos h]

theorem riskUpdate_exploit_val (st : Store) (now : Nat) (riskId : Int)
    (form : UpdateForm) (risk : Risk) :
    (riskUpdate st now riskId form risk).1.postExploitRiskId
      = (updExploit st form risk).1.postExploitRiskId := by
  simp only [riskUpdate]
  rw [updStatus_only, updNotes_only, updRating_only]

theorem riskUpdate_rating_val (st : Store) (now : Nat) (riskId : Int)
    (form : UpdateForm) (risk : Risk) :
    (riskUpdate st now riskId form risk).1.postRiskRatingId
      = (updRating st form (updExploit st form risk).1).1.postRiskRatingId := by
  simp only [riskUpdate]
  rw [updStatus_only, updNotes_only]

theorem updStatus_pres_reviewer (now : Nat) (form : UpdateForm) (risk : Risk)
    (h : ∀ s, form.reviewStatus = some s → s ≠ "reviewed" ∧ s ≠ "approved") :
    (updStatus now form risk).1.reviewedBy = risk.reviewedBy
    ∧ (updStatus now form risk).1.reviewedAt = risk.reviewedAt := by
  cases hf : form.reviewStatus with
  | none => simp [updStatus, hf]
  | some s =>
      obtain ⟨h1, h2⟩ := h s hf
      simp only [updStatus, hf]
      refine ⟨?_, ?_⟩ <;>
        (split
         · rw [if_neg (fun hc => hc.elim (fun e => h1 e) (fun e => h2 e))]
         · rfl)

theorem updStatus_sets (now : Nat) (form : UpdateForm) (risk : Risk)
    (s : String) (hf : form.reviewStatus = some s) (hne : s ≠ "")
    (hdiff : s ≠ risk.reviewStatus)
    (hrs : s = "reviewed" ∨ s = "approved") :
    (updStatus now form risk).1.reviewedAt = some now
    ∧ (updStatus now form risk).1.reviewedBy
        = some (form.reviewedBy.getD "Unknown") := by
  simp only [updStatus, hf]
  rw [if_pos ⟨hne, hdiff⟩]
  simp only
  rw [if_pos hrs]
  exact ⟨rfl, rfl⟩

/-- C4: a review-status update to approved or reviewed from a different
status leaves a non-null reviewed-at timestamp and reviewed-by equal to
the submitted actor, defaulting to the sentinel Unknown when the actor
field is omitted. -/
theorem c4_review_transition_sets_reviewer (st : Store) (now : Nat) (riskId : Int)
    (form : UpdateForm) (risk : Risk) (s : String)
    (hf : form.reviewStatus = some s)
    (hrs : s = "reviewed" ∨ s = "approved")
    (hdiff : s ≠ risk.reviewStatus) :
    (riskUpdate st now riskId form risk).1.reviewedAt = some now
    ∧ (riskUpdate st now riskId form risk).1.reviewedBy
        = some (form.reviewedBy.getD "Unknown") := by
  have hpres : (updNotes form
      (updRating st form (updExploit st form risk).1).1).1.reviewStatus
        = risk.reviewStatus := by
    rw [updNotes_only, updRating_only, updExploit_only]
  have hne : s ≠ "" := by
    rcases hrs with h | h <;> subst h <;> decide
  have hs := updStatus_sets now form
    (updNotes form (updRating st form (updExploit st form risk).1).1).1
    s hf hne (by rw [hpres]; exact hdiff) hrs
  constructor
  · simp only [riskUpdate]
    rw [hs.1]
  · simp only [riskUpdate]
    rw [hs.2]

/-- C9: reviewed-by and reviewed-at are never cleared by an update: any
submission whose proposed review status is not reviewed and not approved
(including a backward transition to pending, or no status at all) leaves
the stored reviewer identity and review timestamp in place. -/
theorem c9_reviewer_fields_never_cleared (st : Store) (now : Nat) (riskId : Int)
    (form : UpdateForm) (risk : Risk)
    (h : ∀ s, form.reviewStatus = some s → s ≠ "reviewed" ∧ s ≠ "approved") :
    (riskUpdate st now riskId form risk).1.reviewedBy = risk.reviewedBy
    ∧ (riskUpdate st now riskId form risk).1.reviewedAt = risk.reviewedAt := by
  obtain ⟨hb, ha⟩ := updStatus_pres_reviewer now form
    (updNotes form (updRating st form (updExploit st form risk).1).1).1 h
  constructor
  · simp only [riskUpdate]
    rw [hb, updNotes_only, updRating_only, updExploit_only]
  · simp only [riskUpdate]
    rw [ha, updNotes_only, updRating_only, updExploit_only]

/-- C10: a post-mitigation field can never be reverted to null through
an update: a proposed exploit-risk or rating id that is absent,
non-numeric or zero is never applied, so a non-null stored value stays
non-null after any update. -/
theorem c10_post_fields_never_cleared (st : Store) (now : Nat) (riskId : Int)
    (form : UpdateForm) (risk : Risk) :
    (risk.postExploitRiskId.isSome = true →
      (riskUpdate st now riskId form risk).1.postExploitRiskId.isSome = true)
    ∧ (risk.postRiskRatingId.isSome = true →
      (riskUpdate st now riskId form risk).1.postRiskRatingId.isSome = true) := by
  constructor
  · intro h
    cases hd : exploitDiffers form risk with
    | false => rw [riskUpdate_pres_exploit st now riskId form risk hd]; exact h
    | true =>
        obtain ⟨n, _, he⟩ := updExploit_applied st form risk hd
        rw [riskUpdate_exploit_val, he]
        rfl
  · intro h
    cases hd : ratingDiffers form risk with
    | false => rw [riskUpdate_pres_rating st now riskId form risk hd]; exact h
    | true =>
        have hd1 : ratingDiffers form (updExploit st form risk).1 = true := by
          rw [ratingDiffers_eq form
            (show (updExploit st form risk).1.postRiskRatingId
                = risk.postRiskRatingId by rw [updExploit_only])]
          exact hd
        obtain ⟨n, _, he⟩ := updRating_applied st form
          (updExploit st form risk).1 hd1
        rw [riskUpdate_rating_val, he]
        rfl

/-- C2 (amended): only the proposed changes whose value differs from the
stored value are applied; every stored field other than the five
candidate fields, the derived reviewed-by/reviewed-at side effect, the
updated-at timestamp, and additionally the assessment-year field — which
the code unconditionally sets to 2026 — is left unchanged. -/
theorem c2_frame_and_applied_changes (st : Store) (now : Nat) (riskId : Int)
    (form : UpdateForm) (risk : Risk) :
    ((riskUpdate st now riskId form risk).1.assessmentNumber = risk.assessmentNumber
      ∧ (riskUpdate st now riskId form risk).1.assetId = risk.assetId
      ∧ (riskUpdate st now riskId form risk).1.operation = risk.operation
      ∧ (riskUpdate st now riskId form risk).1.platform = risk.platform
      ∧ (riskUpdate st now riskId form risk).1.modelRef = risk.modelRef
      ∧ (riskUpdate st now riskId form risk).1.strideCode = risk.strideCode
      ∧ (riskUpdate st now riskId form risk).1.strideDescription = risk.strideDescription
      ∧ (riskUpdate st now riskId form risk).1.findingNumber = risk.findingNumber
      ∧ (riskUpdate st now riskId form risk).1.severityId = risk.severityId
      ∧ (riskUpdate st now riskId form risk).1.preExploitRiskId = risk.preExploitRiskId
      ∧ (riskUpdate st now riskId form risk).1.preRiskRatingId = risk.preRiskRatingId
      ∧ (riskUpdate st now riskId form risk).1.controlIds = risk.controlIds
      ∧ (riskUpdate st now riskId form risk).1.referenceDocs = risk.referenceDocs
      ∧ (riskUpdate st now riskId form risk).1.createdAt = risk.createdAt)
    ∧ ((riskUpdate st now riskId form risk).1.assessmentYear = 2026
      ∧ (riskUpdate st now riskId form risk).1.updatedAt = now)
    ∧ ((exploitDiffers form risk = false →
          (riskUpdate st now riskId form risk).1.postExploitRiskId
            = risk.postExploitRiskId)
      ∧ (ratingDiffers form risk = false →
          (riskUpdate st now riskId form risk).1.postRiskRatingId
            = risk.postRiskRatingId)
      ∧ (notesDiffer form risk = false →
          (riskUpdate st now riskId form risk).1.notes = risk.notes)
      ∧ (statusDiffers form risk = false →
          (riskUpdate st now riskId form risk).1.reviewStatus = risk.reviewStatus
          ∧ (riskUpdate st now riskId form risk).1.reviewedBy = risk.reviewedBy
          ∧ (riskUpdate st now riskId form risk).1.reviewedAt = risk.reviewedAt)) := by
  refine ⟨⟨?_, ?_, ?_, ?_, ?_, ?_, ?_, ?_, ?_, ?_, ?_, ?_, ?_, ?_⟩, ⟨?_, ?_⟩,
    fun h => riskUpdate_pres_exploit st now riskId form risk h,
    fun h => riskUpdate_pres_rating st now riskId form risk h,
    fun h => riskUpdate_pres_notes st now riskId form risk h,
    fun h => riskUpdate_pres_status st now riskId form risk h⟩ <;>
    (simp only [riskUpdate]
     try rw [updStatus_only, updNotes_only, updRating_only, updExploit_only])

/-- Counterexample to C2 as stated: an update with no proposed changes
still mutates the assessment-year field (2025 to 2026), a field outside
the five candidate fields, the reviewer side effect and updated-at. -/
theorem c2_counterexample_year_mutation :
    (riskUpdate emptyStore 5 1 emptyForm approvedRisk).1.assessmentYear = 2026
    ∧ approvedRisk.assessmentYear = 2025 ∧ (2026 : Int) ≠ 2025 := by
  decide

/-- C5 (amended): the CLI import script classifies a new asset exactly
by the spec heuristic (DataFlow on a " to " substring, else Process on a
management / authentication / calculate keyword, else Component), but
the web import path never produces Process. -/
theorem c5_cli_classification_matches_spec :
    (∀ s : String, classifyAssetCli s = classifySpec s)
    ∧ (∀ s : String, classifyAssetWeb s ≠ "Process")
    ∧ classifyAssetCli "Mobile App to Cloud API" = "DataFlow"
    ∧ classifyAssetCli "Authentication Service" = "Process"
    ∧ classifyAssetCli "Payment Gateway" = "Component" := by
  refine ⟨fun s => rfl, fun s => ?_, by decide, by decide, by decide⟩
  unfold classifyAssetWeb
  split <;> decide

/-- Counterexample to C5 as stated: an asset named Authentication
Service newly created by the web import is classified Component, not
Process. -/
theorem c5_counterexample_web_import_no_process :
    ((importData 0 docC5 emptyStore).store.assets.map
      (fun a => a.assetType)) = ["Component"]
    ∧ ("Component" : String) ≠ "Process" := by
  decide

/-- Counterexample to C6 as stated: when the asset name of row 2 is
also new, the two-row same-number import creates two Assets, not one
(the asset pass creates an Asset for every distinct new name in the
asset column regardless of the risk-row skip). -/
theorem c6_counterexample_two_assets_created :
    (importData 0 docC6 emptyStore).outcome = ImportOutcome.ok ⟨2, 0, 1⟩
    ∧ (2 : Nat) ≠ 1 := by
  decide

/-- C6 (amended): the two-row import with repeated assessment number 7
creates exactly one RiskAssessment, numbered 7 (row 2 skipped by the
number key); it creates exactly one new Asset when the asset name of
row 2 already exists in the store, and two new Assets when it is new. -/
theorem c6_one_risk_created_asset_counts :
    ((importData 0 docC6 storeWithBeta).outcome = ImportOutcome.ok ⟨1, 0, 1⟩
      ∧ ((importData 0 docC6 storeWithBeta).store.risks.map
          (fun r => r.assessmentNumber)) = [some 7])
    ∧ ((importData 0 docC6 emptyStore).outcome = ImportOutcome.ok ⟨2, 0, 1⟩
      ∧ ((importData 0 docC6 emptyStore).store.risks.map
          (fun r => r.assessmentNumber)) = [some 7]) := by
  decide

/-- Counterexample to C3 as stated: for a document mixing an explicit
assessment number (5) with a fallback-numbered row, the second run
against the output of the first run imports one more risk
(risksImported = 1, not 0), because the session-counter fallback
re-derives number 1, which the first run never created. -/
theorem c3_counterexample_second_run_reimports :
    (importData 0 docC3 emptyStore).outcome = ImportOutcome.ok ⟨1, 0, 2⟩
    ∧ (importData 0 docC3
        (importData 0 docC3 emptyStore).store).outcome
      = ImportOutcome.ok ⟨0, 0, 1⟩
    ∧ (1 : Nat) ≠ 0 := by
  decide

/-- C8: initialization is a no-op whenever the StrideCategory table is
non-empty — the store is returned unchanged, so no rows are added to any
lookup table and seeding happens exactly once, at first run. -/
theorem c8_seed_noop_when_nonempty (st : Store) (h : st.strideCategories ≠ []) :
    initDb st = st := by
  have hl : (st.strideCategories.length == 0) = false := by
    simp [List.length_eq_zero, h]
  simp [initDb, hl]

theorem c8_seed_witness :
    seededOnce.strideCategories ≠ [] ∧ initDb seededOnce = seededOnce :=
  ⟨by decide, c8_seed_noop_when_nonempty seededOnce (by decide)⟩

/-!
## Risk-loop lemmas
-/

theorem riskStep_frame {now : Nat} {doc : ImportDoc}
    {amap : String → Option Int} {row : ImportRow} {st : Store}
    {pending : List Risk} {count : Nat} {st2 : Store} {p2 : List Risk}
    {c2 : Nat}
    (h : riskStep now doc amap row st pending count
        = Except.ok (st2, p2, c2)) :
    st2.assets = st.assets ∧ st2.controls = st.controls
    ∧ st2.nextAssetId = st.nextAssetId := by
  unfold riskStep at h
  repeat' split at h
  all_goals first
    | exact Except.noConfusion h
    | (cases h; exact ⟨rfl, rfl, rfl⟩)

theorem riskStep_risks {now : Nat} {doc : ImportDoc}
    {amap : String → Option Int} {row : ImportRow} {st : Store}
    {pending : List Risk} {count : Nat} {st2 : Store} {p2 : List Risk}
    {c2 : Nat}
    (h : riskStep now doc amap row st pending count
        = Except.ok (st2, p2, c2)) :
    ∃ l, st2.risks ++ p2 = st.risks ++ pending ++ l := by
  unfold riskStep at h
  repeat' split at h
  all_goals first
    | exact Except.noConfusion h
    | (cases h; exact ⟨[], (List.append_nil _).symm⟩)
    | (cases h; exact ⟨_, List.append_nil _⟩)
    | (cases h; exact ⟨_, (List.append_assoc _ _ _).symm⟩)

theorem hasRiskNum_mono {xs : List Risk} {n : Int}
    (h : hasRiskNum xs n = true) (l : List Risk) :
    hasRiskNum (xs ++ l) n = true := by
  simp only [hasRiskNum, List.any_append, Bool.or_eq_true]
  exact Or.inl h

theorem rowNum_int {doc : ImportDoc} {row : ImportRow} {n : Int}
    (hnum : doc.hasNumCol = true)
    (hcell : row.numVal = some (NumCell.intCell n)) (count : Nat) :
    rowNum doc row count = Except.ok n := by
  simp [rowNum, hnum, hcell, cellToInt]

theorem riskStep_int_ok (now : Nat) {doc : ImportDoc}
    (amap : String → Option Int) {row : ImportRow} {n : Int}
    (hnum : doc.hasNumCol = true)
    (hcell : row.numVal = some (NumCell.intCell n))
    (st : Store) (pending : List Risk) (count : Nat) :
    ∃ out, riskStep now doc amap row st pending count = Except.ok out := by
  simp only [riskStep, rowNum_int hnum hcell count]
  repeat' split
  all_goals exact ⟨_, rfl⟩

theorem riskStep_num {now : Nat} {doc : ImportDoc}
    {amap : String → Option Int} {row : ImportRow} {st : Store}
    {pending : List Risk} {count : Nat} {st2 : Store} {p2 : List Risk}
    {c2 : Nat} {n : Int}
    (hnum : doc.hasNumCol = true)
    (hcell : row.numVal = some (NumCell.intCell n))
    (h : riskStep now doc amap row st pending count
        = Except.ok (st2, p2, c2)) :
    hasRiskNum (st2.risks ++ p2) n = true
    ∨ (rowAssetName doc row).bind amap = none := by
  unfold riskStep at h
  rw [rowNum_int hnum hcell count] at h
  repeat' split at h
  all_goals first
    | exact Except.noConfusion h
    | (injections
       subst_vars
       first
         | (left; assumption)
         | (right; assumption)
         | (left; simp [hasRiskNum, List.any_append, mkImportedRisk]))

theorem riskStep_skip {now : Nat} {doc : ImportDoc}
    {amap : String → Option Int} {row : ImportRow} {st : Store}
    {pending : List Risk} {count : Nat} {n : Int}
    (hnum : doc.hasNumCol = true)
    (hcell : row.numVal = some (NumCell.intCell n))
    (hn : hasRiskNum (st.risks ++ pending) n = true
      ∨ (rowAssetName doc row).bind amap = none) :
    riskStep now doc amap row st pending count
      = Except.ok (st, pending, count) := by
  unfold riskStep
  rw [rowNum_int hnum hcell count]
  rcases hn with hn | hn
  · simp [hn]
  · cases hh : hasRiskNum (st.risks ++ pending) n with
    | true => simp [hh]
    | false => simp [hh, hn]

theorem riskLoop_append (now : Nat) (doc : ImportDoc)
    (amap : String → Option Int) (l1 l2 : List ImportRow) (st : Store)
    (pending : List Risk) (count : Nat) :
    riskLoop now doc amap (l1 ++ l2) st pending count
      = match riskLoop now doc amap l1 st pending count with
        | RiskLoopOut.ok stc p c => riskLoop now doc amap l2 stc p c
        | RiskLoopOut.err m stc => RiskLoopOut.err m stc := by
  induction l1 generalizing st pending count with
  | nil => simp [riskLoop]
  | cons row rest ih =>
      simp only [List.cons_append, riskLoop]
      cases hs : riskStep now doc amap row st pending count with
      | error m => rfl
      | ok t =>
          obtain ⟨st2, p2, c2⟩ := t
          exact ih st2 p2 c2

theorem riskLoop_run1 (now : Nat) (doc : ImportDoc)
    (amap : String → Option Int) (rows : List ImportRow) (st : Store)
    (pending : List Risk) (count : Nat)
    (hnum : doc.hasNumCol = true)
    (hall : ∀ r ∈ rows, ∃ n : Int, r.numVal = some (NumCell.intCell n)) :
    ∃ stc p c,
      riskLoop now doc amap rows st pending count = RiskLoopOut.ok stc p c
      ∧ (∀ r ∈ rows, ∀ n : Int, r.numVal = some (NumCell.intCell n) →
          hasRiskNum (stc.risks ++ p) n = true
          ∨ (rowAssetName doc r).bind amap = none)
      ∧ stc.assets = st.assets ∧ stc.controls = st.controls
      ∧ stc.nextAssetId = st.nextAssetId
      ∧ (∃ l, stc.risks ++ p = st.risks ++ pending ++ l) := by
  induction rows generalizing st pending count with
  | nil =>
      exact ⟨st, pending, count, rfl, by simp, rfl, rfl, rfl,
        ⟨[], (List.append_nil _).symm⟩⟩
  | cons row rest ih =>
      obtain ⟨n, hcell⟩ := hall row (by simp)
      obtain ⟨out, hout⟩ :=
        riskStep_int_ok now amap hnum hcell st pending count
      obtain ⟨st2, p2, c2⟩ := out
      obtain ⟨stc, p, c, hloop, hprop, hfa, hfc, hfn, l0, hl0⟩ :=
        ih st2 p2 c2 (fun r hr => hall r (by simp [hr]))
      obtain ⟨hsa, hsc, hsn⟩ := riskStep_frame hout
      obtain ⟨l1, hl1⟩ := riskStep_risks hout
      refine ⟨stc, p, c, ?_, ?_, hfa.trans hsa, hfc.trans hsc,
        hfn.trans hsn, ⟨l1 ++ l0, ?_⟩⟩
      · simp only [riskLoop, hout]
        exact hloop
      · intro r hr m hm
        rcases List.mem_cons.mp hr with hre | hrt
        · subst hre
          rw [hcell] at hm
          have hnm : n = m := by
            cases hm
            rfl
          subst hnm
          rcases riskStep_num hnum hcell hout with hleft | hright
          · left
            rw [hl0]
            exact hasRiskNum_mono hleft l0
          · exact Or.inr hright
        · exact hprop r hrt m hm
      · rw [hl0, hl1]
        simp [List.append_assoc]

theorem riskLoop_skip_all (now : Nat) (doc : ImportDoc)
    (amap : String → Option Int) (rows : List ImportRow) (st : Store)
    (hnum : doc.hasNumCol = true)
    (hskip : ∀ r ∈ rows, ∃ n : Int,
        r.numVal = some (NumCell.intCell n)
        ∧ (hasRiskNum st.risks n = true
            ∨ (rowAssetName doc r).bind amap = none)) :
    riskLoop now doc amap rows st [] 0 = RiskLoopOut.ok st [] 0 := by
  induction rows with
  | nil => rfl
  | cons row rest ih =>
      obtain ⟨n, hcell, hn⟩ := hskip row (by simp)
      have hs : riskStep now doc amap row st [] 0
          = Except.ok (st, [], 0) :=
        riskStep_skip hnum hcell (by simpa using hn)
      simp only [riskLoop, hs]
      exact ih (fun r hr => hskip r (by simp [hr]))

/-!
## Asset-pass and control-pass lemmas
-/

theorem importAssetsLoop_mono (raws : List String) (st : Store) (k : Nat)
    (nm : String) (h : hasAssetName st nm = true) :
    hasAssetName (importAssetsLoop raws st k).1 nm = true := by
  induction raws generalizing st k with
  | nil => exact h
  | cons raw rest ih =>
      simp only [importAssetsLoop]
      split
      · apply ih
        simp only [hasAssetName, addAsset, List.any_append, Bool.or_eq_true]
        exact Or.inl h
      · exact ih _ _ h

theorem importAssetsLoop_cover (raws : List String) (st : Store) (k : Nat) :
    ∀ raw ∈ raws, pyStrip raw = ""
      ∨ hasAssetName (importAssetsLoop raws st k).1 (pyStrip raw) = true := by
  induction raws generalizing st k with
  | nil => intro r hr; cases hr
  | cons raw rest ih =>
      intro r hr
      simp only [importAssetsLoop]
      split
      · rcases List.mem_cons.mp hr with hre | hrt
        · subst hre
          right
          apply importAssetsLoop_mono
          simp only [hasAssetName, addAsset, List.any_append,
            Bool.or_eq_true]
          right
          simp
        · exact ih _ _ r hrt
      · rcases List.mem_cons.mp hr with hre | hrt
        · subst hre
          rename_i hc
          by_cases he : pyStrip r = ""
          · exact Or.inl he
          · right
            apply importAssetsLoop_mono
            by_cases hh : hasAssetName st (pyStrip r) = true
            · exact hh
            · exact absurd ⟨he, by simpa using hh⟩ hc
        · exact ih _ _ r hrt

theorem importAssetsLoop_frame (raws : List String) (st : Store) (k : Nat) :
    (importAssetsLoop raws st k).1.risks = st.risks
    ∧ (importAssetsLoop raws st k).1.controls = st.controls := by
  induction raws generalizing st k with
  | nil => exact ⟨rfl, rfl⟩
  | cons raw rest ih =>
      simp only [importAssetsLoop]
      split
      · exact ih _ _
      · exact ih _ _

theorem importAssetsLoop_noop : ∀ (raws : List String) (st : Store) (k : Nat),
    (∀ raw ∈ raws, pyStrip raw = ""
      ∨ hasAssetName st (pyStrip raw) = true) →
    importAssetsLoop raws st k = (st, k)
  | [], _, _, _ => rfl
  | raw :: rest, st, k, h => by
      simp only [importAssetsLoop]
      rw [if_neg]
      · exact importAssetsLoop_noop rest st k
          (fun r hr => h r (by simp [hr]))
      · rcases h raw (by simp) with hc | hc
        · exact fun hcon => hcon.1 hc
        · exact fun hcon => hcon.2 hc

theorem controlsLoop_frame : ∀ (rows : List (Option String)) (st : Store)
    (ctr k : Nat),
    (controlsLoop rows st ctr k).1.assets = st.assets
    ∧ (controlsLoop rows st ctr k).1.risks = st.risks
  | [], _, _, _ => ⟨rfl, rfl⟩
  | none :: rest, st, ctr, k => controlsLoop_frame rest st ctr k
  | some txt :: rest, st, ctr, k => by
      simp only [controlsLoop]
      split
      · exact controlsLoop_frame rest _ _ _
      · exact controlsLoop_frame rest st ctr k

theorem importPhaseAssets_frame (doc : ImportDoc) (st : Store) :
    (importPhaseAssets doc st).1.risks = st.risks
    ∧ (importPhaseAssets doc st).1.controls = st.controls := by
  unfold importPhaseAssets
  split
  · exact importAssetsLoop_frame _ _ _
  · exact ⟨rfl, rfl⟩

theorem importPhaseControls_frame (doc : ImportDoc) (st : Store) :
    (importPhaseControls doc st).1.assets = st.assets
    ∧ (importPhaseControls doc st).1.risks = st.risks := by
  unfold importPhaseControls
  split
  · exact controlsLoop_frame _ _ _ _
  · exact ⟨rfl, rfl⟩

theorem hasAssetName_congr {st1 st2 : Store} (h : st1.assets = st2.assets)
    (nm : String) : hasAssetName st1 nm = hasAssetName st2 nm := by
  simp [hasAssetName, h]

theorem assetMapLookup_congr {st1 st2 : Store} (h : st1.assets = st2.assets) :
    assetMapLookup st1 = assetMapLookup st2 := by
  funext nm
  simp [assetMapLookup, h]

/-- Unfolding of the import pipeline (definitional). -/
theorem importData_eq (now : Nat) (doc : ImportDoc) (st : Store) :
    importData now doc st
      = match riskLoop now doc
          (assetMapLookup (importPhaseAssets doc st).1) doc.riskRows
          (importPhaseControls doc (importPhaseAssets doc st).1).1 [] 0 with
        | RiskLoopOut.ok stc pending count =>
            { outcome := ImportOutcome.ok
                ⟨(importPhaseAssets doc st).2,
                 (importPhaseControls doc (importPhaseAssets doc st).1).2,
                 count⟩
              store := { stc with risks := stc.risks ++ pending } }
        | RiskLoopOut.err msg stc =>
            { outcome := ImportOutcome.err msg, store := stc } := rfl

/-- C3 (amended): when every row of the document carries an explicit
int-convertible assessment number, the import is idempotent: a second
run against a store holding the output of the first run reports
assetsImported = 0 and risksImported = 0 and creates no new Asset rows
and no new RiskAssessment rows. -/
theorem c3_idempotent_when_all_rows_numbered (now1 now2 : Nat) (doc : ImportDoc) (st : Store)
    (hnum : doc.hasNumCol = true)
    (hall : ∀ r ∈ doc.riskRows, ∃ n : Int,
        r.numVal = some (NumCell.intCell n)) :
    ∃ s1 cc,
      (importData now1 doc st).outcome = ImportOutcome.ok s1
      ∧ (importData now2 doc (importData now1 doc st).store).outcome
          = ImportOutcome.ok ⟨0, cc, 0⟩
      ∧ (importData now2 doc (importData now1 doc st).store).store.assets
          = (importData now1 doc st).store.assets
      ∧ (importData now2 doc (importData now1 doc st).store).store.risks
          = (importData now1 doc st).store.risks := by
  obtain ⟨stc, p, c, hloop, hprop, hfa, hfc, hfn, l, hl⟩ :=
    riskLoop_run1 now1 doc
      (assetMapLookup (importPhaseAssets doc st).1) doc.riskRows
      (importPhaseControls doc (importPhaseAssets doc st).1).1 [] 0
      hnum hall
  have hres1 : importData now1 doc st
      = { outcome := ImportOutcome.ok
            ⟨(importPhaseAssets doc st).2,
             (importPhaseControls doc (importPhaseAssets doc st).1).2, c⟩
          store := { stc with risks := stc.risks ++ p } } := by
    rw [importData_eq, hloop]
  -- abbreviations for the two stores
  have hassets1 : ({ stc with risks := stc.risks ++ p } : Store).assets
      = (importPhaseAssets doc st).1.assets := by
    show stc.assets = _
    rw [hfa]
    exact (importPhaseControls_frame doc (importPhaseAssets doc st).1).1
  have hpa2 : importPhaseAssets doc
      ({ stc with risks := stc.risks ++ p } : Store)
      = (({ stc with risks := stc.risks ++ p } : Store), 0) := by
    unfold importPhaseAssets
    cases hac : doc.hasAssetCol with
    | false => simp
    | true =>
        simp only [if_true]
        apply importAssetsLoop_noop
        intro raw hr
        rcases importAssetsLoop_cover (assetColValues doc) st 0 raw hr
          with hre | hcov
        · exact Or.inl hre
        · right
          rw [hasAssetName_congr
            (show ({ stc with risks := stc.risks ++ p } : Store).assets
                = (importAssetsLoop (assetColValues doc) st 0).1.assets by
              rw [hassets1]
              unfold importPhaseAssets
              rw [if_pos hac])]
          exact hcov
  have hamap2 : assetMapLookup
      (importPhaseAssets doc ({ stc with risks := stc.risks ++ p } : Store)).1
      = assetMapLookup (importPhaseAssets doc st).1 := by
    rw [hpa2]
    exact assetMapLookup_congr hassets1
  have hpc2assets : (importPhaseControls doc
      (importPhaseAssets doc
        ({ stc with risks := stc.risks ++ p } : Store)).1).1.assets
      = ({ stc with risks := stc.risks ++ p } : Store).assets := by
    rw [hpa2]
    exact (importPhaseControls_frame doc _).1
  have hpc2risks : (importPhaseControls doc
      (importPhaseAssets doc
        ({ stc with risks := stc.risks ++ p } : Store)).1).1.risks
      = stc.risks ++ p := by
    rw [hpa2]
    exact (importPhaseControls_frame doc _).2
  have hloop2 : riskLoop now2 doc
      (assetMapLookup (importPhaseAssets doc
        ({ stc with risks := stc.risks ++ p } : Store)).1)
      doc.riskRows
      (importPhaseControls doc
        (importPhaseAssets doc
          ({ stc with risks := stc.risks ++ p } : Store)).1).1 [] 0
      = RiskLoopOut.ok
          (importPhaseControls doc
            (importPhaseAssets doc
              ({ stc with risks := stc.risks ++ p } : Store)).1).1 [] 0 := by
    rw [hamap2]
    apply riskLoop_skip_all _ _ _ _ _ hnum
    intro r hr
    obtain ⟨n, hcell⟩ := hall r hr
    refine ⟨n, hcell, ?_⟩
    rcases hprop r hr n hcell with hleft | hright
    · left
      rw [hpc2risks]
      exact hleft
    · exact Or.inr hright
  have hres2 : importData now2 doc
      ({ stc with risks := stc.risks ++ p } : Store)
      = { outcome := ImportOutcome.ok
            ⟨0,
             (importPhaseControls doc
               (importPhaseAssets doc
                 ({ stc with risks := stc.risks ++ p } : Store)).1).2, 0⟩
          store := { (importPhaseControls doc
              (importPhaseAssets doc
                ({ stc with risks := stc.risks ++ p } : Store)).1).1 with
            risks := (importPhaseControls doc
              (importPhaseAssets doc
                ({ stc with risks := stc.risks ++ p } : Store)).1).1.risks
              ++ [] } } := by
    rw [importData_eq, hloop2]
    rw [show (importPhaseAssets doc
        ({ stc with risks := stc.risks ++ p } : Store)).2 = 0 by rw [hpa2]]
  refine ⟨⟨(importPhaseAssets doc st).2,
      (importPhaseControls doc (importPhaseAssets doc st).1).2, c⟩,
    (importPhaseControls doc
      (importPhaseAssets doc
        ({ stc with risks := stc.risks ++ p } : Store)).1).2,
    ?_, ?_, ?_, ?_⟩
  · rw [hres1]
  · rw [hres1]
    show (importData now2 doc
        ({ stc with risks := stc.risks ++ p } : Store)).outcome = _
    rw [hres2]
  · rw [hres1]
    show (importData now2 doc
        ({ stc with risks := stc.risks ++ p } : Store)).store.assets = _
    rw [hres2]
    show (importPhaseControls doc
        (importPhaseAssets doc
          ({ stc with risks := stc.risks ++ p } : Store)).1).1.assets = _
    rw [hpc2assets]
  · rw [hres1]
    show (importData now2 doc
        ({ stc with risks := stc.risks ++ p } : Store)).store.risks = _
    rw [hres2]
    show (importPhaseControls doc
        (importPhaseAssets doc
          ({ stc with risks := stc.risks ++ p } : Store)).1).1.risks ++ []
        = _
    rw [List.append_nil, hpc2risks]

theorem riskStep_no_raw {now : Nat} {doc : ImportDoc}
    {amap : String → Option Int} {row : ImportRow}
    (hnone : ∀ t, row.numVal ≠ some (NumCell.rawCell t))
    (st : Store) (pending : List Risk) (count : Nat) :
    ∃ out, riskStep now doc amap row st pending count = Except.ok out := by
  have hm : ∃ m, rowNum doc row count = Except.ok m := by
    unfold rowNum
    cases hv : row.numVal with
    | none => split <;> exact ⟨_, rfl⟩
    | some cell =>
        cases cell with
        | intCell n => split <;> exact ⟨_, rfl⟩
        | rawCell t => exact absurd hv (hnone t)
  obtain ⟨m, hm⟩ := hm
  simp only [riskStep, hm]
  repeat' split
  all_goals exact ⟨_, rfl⟩

theorem riskLoop_clean_ok (now : Nat) (doc : ImportDoc)
    (amap : String → Option Int) :
    ∀ (rows : List ImportRow), (∀ r ∈ rows, ∀ t,
        r.numVal ≠ some (NumCell.rawCell t)) →
    ∀ (st : Store) (pending : List Risk) (count : Nat),
    ∃ stc p c, riskLoop now doc amap rows st pending count
      = RiskLoopOut.ok stc p c
  | [], _, st, pending, count => ⟨st, pending, count, rfl⟩
  | row :: rest, h, st, pending, count => by
      obtain ⟨out, hout⟩ :=
        riskStep_no_raw (fun t => h row (by simp) t) st pending count
      obtain ⟨st2, p2, c2⟩ := out
      obtain ⟨stc, p, c, hloop⟩ := riskLoop_clean_ok now doc amap rest
        (fun r hr t => h r (by simp [hr]) t) st2 p2 c2
      refine ⟨stc, p, c, ?_⟩
      simp only [riskLoop]
      rw [hout]
      exact hloop

theorem riskStep_raw {now : Nat} {doc : ImportDoc}
    {amap : String → Option Int} {row : ImportRow} {s : String}
    (hnum : doc.hasNumCol = true)
    (hbad : row.numVal = some (NumCell.rawCell s))
    (st : Store) (pending : List Risk) (count : Nat) :
    riskStep now doc amap row st pending count
      = Except.error (pyIntErrMsg s) := by
  unfold riskStep rowNum
  simp [hnum, hbad, cellToInt]

/-- C7: when the number cell of a risk row raises on int conversion
(the in-source exception of the import), the remaining rows are
abandoned, the error message is surfaced, and the resulting store is
exactly the committed state reached while processing the prefix — the
asset and control batches and every 100-row risk batch committed before
the exception persist, while pending uncommitted rows do not. -/
theorem c7_exception_aborts_and_keeps_commits (now : Nat) (doc : ImportDoc) (st : Store)
    (pre post : List ImportRow) (row : ImportRow) (s : String)
    (hsplit : doc.riskRows = pre ++ row :: post)
    (hnum : doc.hasNumCol = true)
    (hbad : row.numVal = some (NumCell.rawCell s))
    (hpre : ∀ r ∈ pre, ∀ t, r.numVal ≠ some (NumCell.rawCell t)) :
    ∃ stc pending count,
      riskLoop now doc (assetMapLookup (importPhaseAssets doc st).1) pre
        (importPhaseControls doc (importPhaseAssets doc st).1).1 [] 0
        = RiskLoopOut.ok stc pending count
      ∧ (importData now doc st).outcome
          = ImportOutcome.err (pyIntErrMsg s)
      ∧ (importData now doc st).store = stc := by
  obtain ⟨stc, p, c, hok⟩ := riskLoop_clean_ok now doc
    (assetMapLookup (importPhaseAssets doc st).1) pre hpre
    (importPhaseControls doc (importPhaseAssets doc st).1).1 [] 0
  have hfull : riskLoop now doc
      (assetMapLookup (importPhaseAssets doc st).1) doc.riskRows
      (importPhaseControls doc (importPhaseAssets doc st).1).1 [] 0
      = RiskLoopOut.err (pyIntErrMsg s) stc := by
    rw [hsplit, riskLoop_append, hok]
    simp only [riskLoop, riskStep_raw hnum hbad]
  refine ⟨stc, p, c, hok, ?_, ?_⟩
  · rw [importData_eq, hfull]
  · rw [importData_eq, hfull]

/-!
## Witnesses
-/

theorem c2_frame_witness :
    notesDiffer emptyForm approvedRisk = false
    ∧ (riskUpdate emptyStore 5 1 emptyForm approvedRisk).1.notes
        = approvedRisk.notes
    ∧ statusDiffers emptyForm approvedRisk = false
    ∧ (riskUpdate emptyStore 5 1 emptyForm approvedRisk).1.reviewedBy
        = approvedRisk.reviewedBy := by
  have h := c2_frame_and_applied_changes emptyStore 5 1 emptyForm approvedRisk
  exact ⟨by decide, h.2.2.2.2.1 (by decide), by decide,
    (h.2.2.2.2.2 (by decide)).2.1⟩

theorem c3_idempotence_witness :
    ∃ s1 cc,
      (importData 0 docC6 emptyStore).outcome = ImportOutcome.ok s1
      ∧ (importData 1 docC6 (importData 0 docC6 emptyStore).store).outcome
          = ImportOutcome.ok ⟨0, cc, 0⟩
      ∧ (importData 1 docC6
          (importData 0 docC6 emptyStore).store).store.assets
          = (importData 0 docC6 emptyStore).store.assets
      ∧ (importData 1 docC6
          (importData 0 docC6 emptyStore).store).store.risks
          = (importData 0 docC6 emptyStore).store.risks := by
  apply c3_idempotent_when_all_rows_numbered 0 1 docC6 emptyStore rfl
  intro r hr
  simp only [docC6, List.mem_cons, List.not_mem_nil, or_false] at hr
  rcases hr with h | h <;> subst h <;> exact ⟨7, rfl⟩

theorem c4_review_witness :
    (riskUpdate emptyStore 7 1 formApprove pendingRisk).1.reviewedAt
        = some 7
    ∧ (riskUpdate emptyStore 7 1 formApprove pendingRisk).1.reviewedBy
        = some "Bob" := by
  have h := c4_review_transition_sets_reviewer emptyStore 7 1 formApprove
    pendingRisk "approved" rfl (Or.inr rfl) (by decide)
  exact ⟨h.1, h.2⟩

theorem c7_exception_witness :
    (importData 0 docC7 emptyStore).outcome
      = ImportOutcome.err (pyIntErrMsg "N/A")
    ∧ (importData 0 docC7 emptyStore).store.assets.length = 1
    ∧ (importData 0 docC7 emptyStore).store.risks = [] := by
  obtain ⟨stc, pending, count, hok, hout, hst⟩ :=
    c7_exception_aborts_and_keeps_commits 0 docC7 emptyStore
      [⟨some (NumCell.intCell 1), some "Alpha", none, none⟩] []
      ⟨some (NumCell.rawCell "N/A"), some "Alpha", none, none⟩ "N/A"
      rfl rfl rfl
      (by intro r hr t
          simp only [List.mem_singleton] at hr
          subst hr
          simp)
  exact ⟨hout, by decide, by decide⟩

theorem c9_reviewer_witness :
    (riskUpdate emptyStore 9 1 formPendingBack approvedRisk).1.reviewedBy
        = some "Alice"
    ∧ (riskUpdate emptyStore 9 1 formPendingBack approvedRisk).1.reviewedAt
        = some 10 := by
  have h := c9_reviewer_fields_never_cleared emptyStore 9 1 formPendingBack
    approvedRisk
    (by intro s hs
        injection hs with h2
        subst h2
        exact ⟨by decide, by decide⟩)
  exact ⟨h.1, h.2⟩

theorem c10_post_witness :
    approvedRisk.postExploitRiskId.isSome = true
    ∧ (riskUpdate emptyStore 3 1 formZero
        approvedRisk).1.postExploitRiskId.isSome = true
    ∧ approvedRisk.postRiskRatingId.isSome = true
    ∧ (riskUpdate emptyStore 3 1 formZero
        approvedRisk).1.postRiskRatingId.isSome = true := by
  have h := c10_post_fields_never_cleared emptyStore 3 1 formZero approvedRisk
  exact ⟨by decide, h.1 (by decide), by decide, h.2 (by decide)⟩
